import Mathlib

/-!
Verification of the ambisonic spatial-audio library against its
specification.  The repository ships the builder/facade layer
(`src/lib.rs`); the core modules it declares (`bformat`, `bmixer`,
`bstream`, `renderer`) are not present, so their behaviour is modelled
from the specification where a claim needs it.  Real-valued audio data
is modelled over the rational numbers.
-/

namespace Ambisonic

/-- A 3D listener-centred vector, used for positions, velocities and unit
directions (spec section 3). -/
structure Vec3 where
  x : ℚ
  y : ℚ
  z : ℚ
deriving DecidableEq

/-- The zero vector. -/
def Vec3.zero : Vec3 := ⟨0, 0, 0⟩

/-- Scalar multiple of a vector. -/
def Vec3.smul (s : ℚ) (v : Vec3) : Vec3 := ⟨s * v.x, s * v.y, s * v.z⟩

/-- Euclidean dot product of two vectors. -/
def dot (a b : Vec3) : ℚ := a.x * b.x + a.y * b.y + a.z * b.z

/-- The forward unit direction; the spec (section 4.1) names (0,0,1) as the
fallback direction, so the forward axis is the z axis and x, y are the
lateral components. -/
def forward : Vec3 := ⟨0, 0, 1⟩

/-- A first-order ambisonic B-format sample: four real values W, X, Y, Z
(spec section 3, FieldFrame). -/
structure FieldFrame where
  w : ℚ
  x : ℚ
  y : ℚ
  z : ℚ
deriving DecidableEq

/-- Component-wise sum of two field frames (spec section 4.3, step 3). -/
def FieldFrame.add (a b : FieldFrame) : FieldFrame :=
  ⟨a.w + b.w, a.x + b.x, a.y + b.y, a.z + b.z⟩

/-- The silent frame: all four components zero (spec section 4.3,
empty-mix case). -/
def FieldFrame.silent : FieldFrame := ⟨0, 0, 0, 0⟩

/-- Modelled from the spec: the FieldEncoder panning law (module `bformat`
is declared by `src/lib.rs` but its file is absent).  Given one mono
sample, a gain, and the unit direction from the listener to the source, it
produces one FieldFrame with `W = sample * gain * kw` for a fixed
normalization constant `kw`, and `X`, `Y`, `Z` the sample scaled by the
gain and the direction components (spec section 4.1).  The constant `kw`
is not pinned by the spec, so it is a parameter here. -/
def encode (kw : ℚ) (sample gain : ℚ) (dir : Vec3) : FieldFrame :=
  ⟨sample * gain * kw, sample * gain * dir.x, sample * gain * dir.y,
    sample * gain * dir.z⟩

/-- Modelled from the spec: the Doppler rate modulation (spec sections 4.1
and 8; module `bstream` absent).  The effective playback rate is
`1 + vRel / cRef` where `vRel` is the component of the source velocity
projected onto the axis between source and listener; `toListener` is the
unit vector pointing from the source toward the listener, so `vRel` is
positive exactly when the source approaches the listener. -/
def doppler_rate (vel toListener : Vec3) (cRef : ℚ) : ℚ :=
  1 + dot vel toListener / cRef

/-- Modelled from the spec: a SourceChannel (module `bstream` absent) owns
the remaining mono samples of one producer, the mutable position, velocity
and gain, and a stopped flag (spec sections 3 and 4.2).  An empty sample
list models an exhausted producer. -/
structure SourceChannel where
  samples : List ℚ
  position : Vec3
  velocity : Vec3
  gain : ℚ
  stopped : Bool
deriving DecidableEq

/-- Modelled from the spec: the pull operation of a SourceChannel (spec
section 4.2): once the stream is drained or the channel was stopped it
signals exhaustion; otherwise it advances the mono stream by one sample,
applies the FieldEncoder with the channel gain and the direction derived
from the channel position, and returns one FieldFrame together with the
advanced channel.  The direction-derivation policy (normalization with its
zero-distance fallback) is the encoder side's concern and is kept as the
parameter `dirOf`. -/
def SourceChannel.pull (kw : ℚ) (dirOf : Vec3 → Vec3) (ch : SourceChannel) :
    Option (FieldFrame × SourceChannel) :=
  if ch.stopped then none
  else
    match ch.samples with
    | [] => none
    | s :: rest =>
      some (encode kw s ch.gain (dirOf ch.position),
        { ch with samples := rest })

/-- The frame a channel contributes on one tick: its pulled frame, or the
silent frame when it is exhausted. -/
def SourceChannel.pullFrame (kw : ℚ) (dirOf : Vec3 → Vec3)
    (ch : SourceChannel) : FieldFrame :=
  ((ch.pull kw dirOf).map Prod.fst).getD FieldFrame.silent

/-- Modelled from the spec: the MixBus state (module `bmixer` absent): an
ordered collection of active SourceChannels, a pending-insertion queue for
newly composed channels, and a counter producing fresh handle identifiers
(spec section 3, MixBus state).  Channels are keyed by their handle
identifier. -/
structure MixBus where
  active : List (Nat × SourceChannel)
  pending : List (Nat × SourceChannel)
  nextId : Nat
deriving DecidableEq

/-- All channels the next tick will consider: the active set together with
the drained pending queue, in order. -/
def MixBus.entries (m : MixBus) : List (Nat × SourceChannel) :=
  m.active ++ m.pending

/-- The MixBus with no channels at all. -/
def MixBus.empty : MixBus := ⟨[], [], 0⟩

/-- The frames the sources would each produce on their own for this tick:
one per channel whose pull succeeds, in registration order. -/
def MixBus.sourceFrames (kw : ℚ) (dirOf : Vec3 → Vec3) (m : MixBus) :
    List FieldFrame :=
  m.entries.filterMap (fun e => (e.2.pull kw dirOf).map Prod.fst)

/-- The surviving channels after a tick: each channel whose pull succeeded,
advanced by one sample, keyed as before. -/
def MixBus.survivors (kw : ℚ) (dirOf : Vec3 → Vec3) (m : MixBus) :
    List (Nat × SourceChannel) :=
  m.entries.filterMap
    (fun e => (e.2.pull kw dirOf).map (fun r => (e.1, r.2)))

/-- Modelled from the spec: one MixBus tick (spec section 4.3): drain the
pending queue into the active set, pull one FieldFrame from every active
channel, sum the frames component-wise, drop every channel that signaled
exhaustion, and emit the summed frame.  With no active sources the sum is
the silent frame. -/
def MixBus.tick (kw : ℚ) (dirOf : Vec3 → Vec3) (m : MixBus) :
    FieldFrame × MixBus :=
  ((m.sourceFrames kw dirOf).foldl FieldFrame.add FieldFrame.silent,
    ⟨m.survivors kw dirOf, [], m.nextId⟩)

/-- Repeatedly tick the MixBus, collecting the emitted frames. -/
def MixBus.run (kw : ℚ) (dirOf : Vec3 → Vec3) (m : MixBus) :
    Nat → List FieldFrame × MixBus
  | 0 => ([], m)
  | n + 1 =>
    let step := m.tick kw dirOf
    let rest := step.2.run kw dirOf n
    (step.1 :: rest.1, rest.2)

/-- Apply `f` to the channel keyed `id`, leaving every other entry as it
is. -/
def updateEntry (id : Nat) (f : SourceChannel → SourceChannel)
    (e : Nat × SourceChannel) : Nat × SourceChannel :=
  if e.1 = id then (e.1, f e.2) else e

/-- Modelled from the spec: a control-handle mutation (spec section 4.2):
it writes into the state slot of the channel the handle refers to, wherever
it lives (active set or pending queue); a handle whose channel has been
retired finds no entry and changes nothing. -/
def MixBus.updateChannel (m : MixBus) (id : Nat)
    (f : SourceChannel → SourceChannel) : MixBus :=
  ⟨m.active.map (updateEntry id f), m.pending.map (updateEntry id f),
    m.nextId⟩

/-- Modelled from the spec: `set_position` through a control handle. -/
def MixBus.set_position (m : MixBus) (id : Nat) (p : Vec3) : MixBus :=
  m.updateChannel id (fun ch => { ch with position := p })

/-- Modelled from the spec: `set_velocity` through a control handle. -/
def MixBus.set_velocity (m : MixBus) (id : Nat) (v : Vec3) : MixBus :=
  m.updateChannel id (fun ch => { ch with velocity := v })

/-- Modelled from the spec: `set_gain` through a control handle. -/
def MixBus.set_gain (m : MixBus) (id : Nat) (g : ℚ) : MixBus :=
  m.updateChannel id (fun ch => { ch with gain := g })

/-- Mark one channel stopped; its next pull will signal exhaustion. -/
def stopChannel (ch : SourceChannel) : SourceChannel :=
  { ch with stopped := true }

/-- Modelled from the spec: `stop` through a control handle: it marks the
channel stopped, after which its next pull signals exhaustion (spec
sections 4.2 and 5). -/
def MixBus.stop (m : MixBus) (id : Nat) : MixBus :=
  m.updateChannel id stopChannel

/-- Modelled from the spec: the per-source playback configuration built by
`BstreamConfig::new()` and its `with_position` method (module `bstream`
absent): no position set, velocity defaulting to the zero vector, gain to
unity (spec section 4.4). -/
structure BstreamConfig where
  position : Option Vec3
  velocity : Vec3
  gain : ℚ
deriving DecidableEq

/-- Modelled from the spec: a fresh default configuration: no position
set, zero velocity, unit gain. -/
def BstreamConfig.new : BstreamConfig := ⟨none, Vec3.zero, 1⟩

/-- Modelled from the spec: set the initial position of the source. -/
def BstreamConfig.with_position (cfg : BstreamConfig) (p : Vec3) :
    BstreamConfig := { cfg with position := some p }

/-- Modelled from the spec: `BmixerComposer::play` (module `bmixer`
absent): wrap the mono stream in a SourceChannel carrying the
configuration's initial state, enqueue it on the pending-insertion queue,
and return the control handle (its identifier) immediately (spec section
4.4).  A configuration without a position yields an omnidirectional
source, placed on the forward fallback direction of spec section 4.1. -/
def BmixerComposer.play (m : MixBus) (input : List ℚ)
    (cfg : BstreamConfig) : MixBus × Nat :=
  let ch : SourceChannel :=
    { samples := input
      position := cfg.position.getD forward
      velocity := cfg.velocity
      gain := cfg.gain
      stopped := false }
  (⟨m.active, m.pending ++ [(m.nextId, ch)], m.nextId + 1⟩, m.nextId)

/-- Embeds `Ambisonic::play_omni` (src/lib.rs lines 211-217): forwards the
input to the composer with a fresh `BstreamConfig::new()`. -/
def Ambisonic.play_omni (m : MixBus) (input : List ℚ) : MixBus × Nat :=
  BmixerComposer.play m input BstreamConfig.new

/-- Embeds the deprecated `Ambisonic::play` (src/lib.rs lines 196-206): it
delegates to `play_omni`. -/
def Ambisonic.play (m : MixBus) (input : List ℚ) : MixBus × Nat :=
  Ambisonic.play_omni m input

/-- Embeds `Ambisonic::play_at` (src/lib.rs lines 223-229): forwards the
input to the composer with `BstreamConfig::new().with_position(pos)`. -/
def Ambisonic.play_at (m : MixBus) (input : List ℚ) (pos : Vec3) :
    MixBus × Nat :=
  BmixerComposer.play m input (BstreamConfig.new.with_position pos)

/-- Modelled from the spec: the stereo renderer configuration carries the
stereo width parameter (spec section 6; module `renderer` absent).  The
default width value is not pinned by the spec. -/
structure StereoConfig where
  width : ℚ
deriving DecidableEq

/-- Modelled from the spec: `StereoConfig::default()`; the width value is
not pinned by the spec, only that a default exists. -/
def StereoConfig.default : StereoConfig := ⟨1⟩

/-- Modelled from the spec: the HRTF renderer configuration carries the
impulse-response table source (spec section 6; module `renderer` absent);
its contents are opaque to the claims below. -/
structure HrtfConfig where
  irTable : List ℚ
deriving DecidableEq

/-- Modelled from the spec: the multi-speaker renderer configuration
carries the speaker direction list (spec section 6; module `renderer`
absent). -/
structure MultiSpeakerConfig where
  speakers : List Vec3
deriving DecidableEq

/-- Embeds `PlaybackConfiguration` (src/lib.rs lines 71-79): the closed
variant set Stereo, Hrtf, MultiSpeaker. -/
inductive PlaybackConfiguration where
  | stereo (cfg : StereoConfig)
  | hrtf (cfg : HrtfConfig)
  | multiSpeaker (cfg : MultiSpeakerConfig)
deriving DecidableEq

/-- Embeds `impl Default for PlaybackConfiguration` (src/lib.rs lines
81-85): the Stereo variant with the default stereo configuration. -/
def PlaybackConfiguration.default : PlaybackConfiguration :=
  PlaybackConfiguration.stereo StereoConfig.default

/-- The renderer handed to the playback sink, one variant per playback
configuration, each carrying its construction-time state. -/
inductive Renderer where
  | stereo (cfg : StereoConfig)
  | hrtf (cfg : HrtfConfig)
  | multiSpeaker (cfg : MultiSpeakerConfig)
deriving DecidableEq

/-- Stands for the external, opaque `rodio::Device`; only its identity
matters to the builder. -/
structure Device where
  id : Nat
deriving DecidableEq

/-- Embeds `AmbisonicBuilder` (src/lib.rs lines 100-104): an optional
output device, the mix sample rate (a `u32`; no arithmetic is performed on
it, so plain naturals suffice), and the playback configuration. -/
structure AmbisonicBuilder where
  device : Option Device
  sample_rate : Nat
  config : PlaybackConfiguration
deriving DecidableEq

/-- Embeds `impl Default for AmbisonicBuilder` (src/lib.rs lines 169-177):
no device, sample rate 48000, default playback configuration. -/
def AmbisonicBuilder.default : AmbisonicBuilder :=
  ⟨none, 48000, PlaybackConfiguration.default⟩

/-- Embeds `AmbisonicBuilder::with_device` (src/lib.rs lines 148-153):
functional update of the device field only. -/
def AmbisonicBuilder.with_device (b : AmbisonicBuilder) (d : Device) :
    AmbisonicBuilder := { b with device := some d }

/-- Embeds `AmbisonicBuilder::with_sample_rate` (src/lib.rs lines
156-161): functional update of the sample-rate field only. -/
def AmbisonicBuilder.with_sample_rate (b : AmbisonicBuilder) (r : Nat) :
    AmbisonicBuilder := { b with sample_rate := r }

/-- Embeds `AmbisonicBuilder::with_config` (src/lib.rs lines 164-166):
functional update of the configuration field only. -/
def AmbisonicBuilder.with_config (b : AmbisonicBuilder)
    (c : PlaybackConfiguration) : AmbisonicBuilder :=
  { b with config := c }

/-- Embeds the renderer dispatch inside `AmbisonicBuilder::build`
(src/lib.rs lines 124-138).  The Stereo and Hrtf arms construct the
corresponding renderer over the mixer and append it to the sink.  The
MultiSpeaker arm of the source is the incomplete expression
`renderer::BstreamMultiSpeakerRenderer::` followed by nothing: it
constructs no renderer (the crate does not even compile), embedded here as
failure. -/
def buildRenderer : PlaybackConfiguration → Option Renderer
  | PlaybackConfiguration.stereo cfg => some (Renderer.stereo cfg)
  | PlaybackConfiguration.hrtf cfg => some (Renderer.hrtf cfg)
  | PlaybackConfiguration.multiSpeaker _ => none

/-- The built context: the renderer appended to the sink and the composer
over a mixer running at the configured sample rate. -/
structure AmbisonicCtx where
  renderer : Renderer
  mixerRate : Nat
deriving DecidableEq

/-- Embeds `AmbisonicBuilder::build` (src/lib.rs lines 113-145): create a
mixer at the configured sample rate, construct the renderer for the chosen
configuration over it and hand it to the playback sink.  Fails when the
dispatch produces no renderer. -/
def AmbisonicBuilder.build (b : AmbisonicBuilder) : Option AmbisonicCtx :=
  (buildRenderer b.config).map (fun r => ⟨r, b.sample_rate⟩)

/-! Helper lemmas shared between the claims. -/

/-- Adding the silent frame changes nothing. -/
theorem FieldFrame.add_silent (a : FieldFrame) :
    a.add FieldFrame.silent = a := by
  cases a; simp [FieldFrame.add, FieldFrame.silent]

/-- Two field frames agreeing on every component are equal. -/
theorem FieldFrame.eq_of_components (a b : FieldFrame) (hw : a.w = b.w)
    (hx : a.x = b.x) (hy : a.y = b.y) (hz : a.z = b.z) : a = b := by
  cases a; cases b; simp_all

/-- A component projection that distributes over frame addition turns the
summation fold into a sum of the projected components. -/
theorem foldl_add_proj (f : FieldFrame → ℚ)
    (hf : ∀ p q, f (FieldFrame.add p q) = f p + f q)
    (l : List FieldFrame) (a : FieldFrame) :
    f (l.foldl FieldFrame.add a) = f a + (l.map f).sum := by
  induction l generalizing a with
  | nil => simp
  | cons b t ih =>
    simp only [List.foldl_cons, List.map_cons, List.sum_cons, ih, hf]
    ring

/-- The frame a tick emits projects, on any additive component, to the sum
of that component over the per-source frames. -/
theorem tick_proj (f : FieldFrame → ℚ)
    (hf : ∀ p q, f (FieldFrame.add p q) = f p + f q)
    (hs : f FieldFrame.silent = 0) (kw : ℚ) (dirOf : Vec3 → Vec3)
    (m : MixBus) :
    f (m.tick kw dirOf).1 = ((m.sourceFrames kw dirOf).map f).sum := by
  show f ((m.sourceFrames kw dirOf).foldl FieldFrame.add FieldFrame.silent)
      = _
  rw [foldl_add_proj f hf, hs, zero_add]

/-- Folding the frame sum over a list extended by one element adds that
element's frame on top. -/
theorem foldl_add_append_single (l : List FieldFrame) (a x : FieldFrame) :
    (l ++ [x]).foldl FieldFrame.add a = (l.foldl FieldFrame.add a).add x := by
  simp [List.foldl_append]

/-- Updating a channel that is not present in a list changes nothing. -/
theorem map_updateEntry_of_not_mem (id : Nat)
    (f : SourceChannel → SourceChannel) (l : List (Nat × SourceChannel))
    (h : id ∉ l.map Prod.fst) : l.map (updateEntry id f) = l := by
  induction l with
  | nil => rfl
  | cons e t ih =>
    have h1 : e.1 ≠ id := by
      intro he
      exact h (by simp [he])
    have h2 : id ∉ t.map Prod.fst := by
      intro hm
      exact h (by simp [hm])
    simp [List.map_cons, updateEntry, h1, ih h2]

/-- Updating every matching channel twice with an idempotent mutation is
the same as doing it once. -/
theorem map_updateEntry_idem (id : Nat)
    (f : SourceChannel → SourceChannel) (hff : ∀ ch, f (f ch) = f ch)
    (l : List (Nat × SourceChannel)) :
    (l.map (updateEntry id f)).map (updateEntry id f)
      = l.map (updateEntry id f) := by
  induction l with
  | nil => rfl
  | cons e t ih =>
    simp only [List.map_cons, ih, List.cons.injEq, and_true]
    by_cases he : e.1 = id
    · simp [updateEntry, he, hff]
    · simp [updateEntry, he]

/-! The claims. -/

/-- C1: the claim says building the context constructs the matching
renderer for every configuration in the closed variant set, in particular
a working MultiSpeaker renderer for a MultiSpeaker configuration.  The
code violates this: the MultiSpeaker arm of `AmbisonicBuilder::build`
(src/lib.rs line 136) is the incomplete expression
`renderer::BstreamMultiSpeakerRenderer::` which constructs nothing, so
building with a MultiSpeaker configuration produces no renderer, while the
Stereo and Hrtf arms do construct theirs. -/
theorem build_multiSpeaker_constructs_nothing :
    buildRenderer (PlaybackConfiguration.multiSpeaker ⟨[forward]⟩) = none
    ∧ (AmbisonicBuilder.default.with_config
        (PlaybackConfiguration.multiSpeaker ⟨[forward]⟩)).build = none
    ∧ buildRenderer (PlaybackConfiguration.stereo StereoConfig.default)
        = some (Renderer.stereo StereoConfig.default)
    ∧ buildRenderer (PlaybackConfiguration.hrtf ⟨[]⟩)
        = some (Renderer.hrtf ⟨[]⟩) :=
  ⟨rfl, rfl, rfl, rfl⟩

/-- C2: each MixBus output frame equals the component-wise (W, X, Y, Z
independently) sum of the frames each source would produce on its own for
that tick, and any two MixBus states holding the same channels in any
order emit the same frame (order-independence of registration). -/
theorem mix_sum_componentwise_and_order_free (kw : ℚ)
    (dirOf : Vec3 → Vec3) (m m₂ : MixBus)
    (hperm : List.Perm m.entries m₂.entries) :
    ((m.tick kw dirOf).1.w
        = ((m.sourceFrames kw dirOf).map FieldFrame.w).sum
      ∧ (m.tick kw dirOf).1.x
        = ((m.sourceFrames kw dirOf).map FieldFrame.x).sum
      ∧ (m.tick kw dirOf).1.y
        = ((m.sourceFrames kw dirOf).map FieldFrame.y).sum
      ∧ (m.tick kw dirOf).1.z
        = ((m.sourceFrames kw dirOf).map FieldFrame.z).sum)
    ∧ (m.tick kw dirOf).1 = (m₂.tick kw dirOf).1 := by
  have hframes : List.Perm (m.sourceFrames kw dirOf)
      (m₂.sourceFrames kw dirOf) :=
    hperm.filterMap _
  refine ⟨⟨tick_proj FieldFrame.w (fun _ _ => rfl) rfl kw dirOf m,
      tick_proj FieldFrame.x (fun _ _ => rfl) rfl kw dirOf m,
      tick_proj FieldFrame.y (fun _ _ => rfl) rfl kw dirOf m,
      tick_proj FieldFrame.z (fun _ _ => rfl) rfl kw dirOf m⟩, ?_⟩
  refine FieldFrame.eq_of_components _ _ ?_ ?_ ?_ ?_
  · rw [tick_proj FieldFrame.w (fun _ _ => rfl) rfl kw dirOf m,
      tick_proj FieldFrame.w (fun _ _ => rfl) rfl kw dirOf m₂]
    exact (hframes.map FieldFrame.w).sum_eq
  · rw [tick_proj FieldFrame.x (fun _ _ => rfl) rfl kw dirOf m,
      tick_proj FieldFrame.x (fun _ _ => rfl) rfl kw dirOf m₂]
    exact (hframes.map FieldFrame.x).sum_eq
  · rw [tick_proj FieldFrame.y (fun _ _ => rfl) rfl kw dirOf m,
      tick_proj FieldFrame.y (fun _ _ => rfl) rfl kw dirOf m₂]
    exact (hframes.map FieldFrame.y).sum_eq
  · rw [tick_proj FieldFrame.z (fun _ _ => rfl) rfl kw dirOf m,
      tick_proj FieldFrame.z (fun _ _ => rfl) rfl kw dirOf m₂]
    exact (hframes.map FieldFrame.z).sum_eq

/-- C2 witness: two concrete two-source MixBus states holding the same
channels in swapped order satisfy the permutation hypothesis and emit the
same frame. -/
theorem mix_sum_componentwise_and_order_free_witness :
    List.Perm
        (MixBus.entries
          ⟨[(0, ⟨[1], forward, Vec3.zero, 1, false⟩)],
            [(1, ⟨[2], forward, Vec3.zero, 1, false⟩)], 2⟩)
        (MixBus.entries
          ⟨[(1, ⟨[2], forward, Vec3.zero, 1, false⟩),
            (0, ⟨[1], forward, Vec3.zero, 1, false⟩)], [], 2⟩)
    ∧ (MixBus.tick 1 id
        ⟨[(0, ⟨[1], forward, Vec3.zero, 1, false⟩)],
          [(1, ⟨[2], forward, Vec3.zero, 1, false⟩)], 2⟩).1
      = (MixBus.tick 1 id
        ⟨[(1, ⟨[2], forward, Vec3.zero, 1, false⟩),
          (0, ⟨[1], forward, Vec3.zero, 1, false⟩)], [], 2⟩).1 := by
  have hp : List.Perm
      (MixBus.entries
        ⟨[(0, ⟨[1], forward, Vec3.zero, 1, false⟩)],
          [(1, ⟨[2], forward, Vec3.zero, 1, false⟩)], 2⟩)
      (MixBus.entries
        ⟨[(1, ⟨[2], forward, Vec3.zero, 1, false⟩),
          (0, ⟨[1], forward, Vec3.zero, 1, false⟩)], [], 2⟩) := by
    simp only [MixBus.entries]
    exact List.Perm.swap _ _ _
  exact ⟨hp, (mix_sum_componentwise_and_order_free 1 id _ _ hp).2⟩

/-- C3: the FieldEncoder produces exactly `W = sample * gain * kw`,
`X = sample * gain * dir.x`, `Y = sample * gain * dir.y`,
`Z = sample * gain * dir.z`; consequently a source exactly in front of the
listener at unit distance and unit gain yields a frame whose directional
components lie on the forward axis with zero lateral components. -/
theorem fieldEncoder_panning_law (kw sample gain : ℚ) (dir : Vec3) :
    encode kw sample gain dir
      = ⟨sample * gain * kw, sample * gain * dir.x, sample * gain * dir.y,
          sample * gain * dir.z⟩
    ∧ encode kw sample 1 forward = ⟨sample * kw, 0, 0, sample⟩ := by
  refine ⟨rfl, ?_⟩
  simp [encode, forward]

/-- C4: the effective playback rate is `1 + vRel / cRef` with `vRel` the
velocity component projected on the source-listener axis; a velocity of
positive magnitude straight toward the listener gives a rate strictly
above one, straight away strictly below one, and zero velocity gives
exactly one. -/
theorem doppler_rate_correct (c : ℚ) (d : Vec3) (s : ℚ) (hc : 0 < c)
    (hd : dot d d = 1) (hs : 0 < s) :
    (∀ v, doppler_rate v d c = 1 + dot v d / c)
    ∧ 1 < doppler_rate (Vec3.smul s d) d c
    ∧ doppler_rate (Vec3.smul (-s) d) d c < 1
    ∧ doppler_rate Vec3.zero d c = 1 := by
  have hsd : ∀ t : ℚ, dot (Vec3.smul t d) d = t := by
    intro t
    simp only [dot, Vec3.smul] at hd ⊢
    linear_combination t * hd
  refine ⟨fun _ => rfl, ?_, ?_, ?_⟩
  · rw [doppler_rate, hsd s]
    have hpos : 0 < s / c := div_pos hs hc
    linarith
  · rw [doppler_rate, hsd (-s)]
    have hneg : (-s) / c < 0 := div_neg_of_neg_of_pos (by linarith) hc
    linarith
  · simp [doppler_rate, dot, Vec3.zero]

/-- C4 witness: reference speed 340, forward unit direction and approach
speed 2 satisfy the hypotheses, and the rate toward the listener exceeds
one. -/
theorem doppler_rate_correct_witness :
    (0 < (340 : ℚ) ∧ dot forward forward = 1 ∧ 0 < (2 : ℚ))
    ∧ 1 < doppler_rate (Vec3.smul 2 forward) forward 340 := by
  refine ⟨⟨by norm_num, by norm_num [dot, forward], by norm_num⟩, ?_⟩
  exact (doppler_rate_correct 340 forward 2 (by norm_num)
    (by norm_num [dot, forward]) (by norm_num)).2.1

/-- C5: a MixBus with zero active sources (empty active set and empty
pending queue) emits the silent frame, all four components zero, on every
one of arbitrarily many consecutive ticks, never stalling or erring, and
stays empty. -/
theorem empty_mix_emits_silence (kw : ℚ) (dirOf : Vec3 → Vec3)
    (i : Nat) (n : Nat) :
    ((MixBus.mk [] [] i).run kw dirOf n).1
        = List.replicate n FieldFrame.silent
    ∧ ((MixBus.mk [] [] i).run kw dirOf n).2 = MixBus.mk [] [] i := by
  induction n with
  | zero => exact ⟨rfl, rfl⟩
  | succ k ih =>
    have hrun : (MixBus.mk [] [] i).run kw dirOf (k + 1)
        = (FieldFrame.silent :: ((MixBus.mk [] [] i).run kw dirOf k).1,
            ((MixBus.mk [] [] i).run kw dirOf k).2) := rfl
    rw [hrun]
    exact ⟨by rw [List.replicate_succ, ih.1], ih.2⟩

/-- C6: every control operation through a handle whose channel has been
retired (absent from both the active set and the pending queue) is a
silent no-op leaving the mix state unchanged, and stopping twice is the
same as stopping once. -/
theorem control_on_retired_handle_noop (m : MixBus) (id : Nat)
    (p v : Vec3) (g : ℚ) (hid : id ∉ m.entries.map Prod.fst) :
    m.set_position id p = m ∧ m.set_velocity id v = m
    ∧ m.set_gain id g = m ∧ m.stop id = m
    ∧ (∀ m₂ : MixBus, (m₂.stop id).stop id = m₂.stop id) := by
  have hsplit : id ∉ m.active.map Prod.fst ∧ id ∉ m.pending.map Prod.fst := by
    simp only [MixBus.entries, List.map_append, List.mem_append] at hid
    exact ⟨fun h => hid (Or.inl h), fun h => hid (Or.inr h)⟩
  have noop : ∀ f : SourceChannel → SourceChannel,
      m.updateChannel id f = m := by
    intro f
    show (⟨m.active.map (updateEntry id f), m.pending.map (updateEntry id f),
      m.nextId⟩ : MixBus) = m
    rw [map_updateEntry_of_not_mem id f m.active hsplit.1,
      map_updateEntry_of_not_mem id f m.pending hsplit.2]
  refine ⟨noop _, noop _, noop _, noop _, ?_⟩
  intro m₂
  simp only [MixBus.stop, MixBus.updateChannel]
  rw [map_updateEntry_idem id stopChannel (fun ch => rfl) m₂.active,
    map_updateEntry_idem id stopChannel (fun ch => rfl) m₂.pending]

/-- C6 witness: a concrete one-source mix and the absent handle 7 satisfy
the retirement hypothesis, and setting a position through handle 7 leaves
the mix unchanged. -/
theorem control_on_retired_handle_noop_witness :
    ((7 : Nat) ∉ (MixBus.entries
        ⟨[(0, ⟨[1], forward, Vec3.zero, 1, false⟩)], [], 1⟩).map Prod.fst)
    ∧ MixBus.set_position
        ⟨[(0, ⟨[1], forward, Vec3.zero, 1, false⟩)], [], 1⟩ 7 forward
      = ⟨[(0, ⟨[1], forward, Vec3.zero, 1, false⟩)], [], 1⟩ := by
  have h : (7 : Nat) ∉ (MixBus.entries
      ⟨[(0, ⟨[1], forward, Vec3.zero, 1, false⟩)], [], 1⟩).map Prod.fst := by
    simp [MixBus.entries]
  exact ⟨h, (control_on_retired_handle_noop _ 7 forward Vec3.zero 1 h).1⟩

/-- C7: the default builder carries sample rate exactly 48000 and the
Stereo playback configuration, and a context built without overriding the
sample rate mixes at 48000. -/
theorem default_builder_stereo_48000 :
    AmbisonicBuilder.default.sample_rate = 48000
    ∧ AmbisonicBuilder.default.config
        = PlaybackConfiguration.stereo StereoConfig.default
    ∧ AmbisonicBuilder.default.build
        = some ⟨Renderer.stereo StereoConfig.default, 48000⟩ :=
  ⟨rfl, rfl, rfl⟩

/-- C8: `play_at` wraps the mono stream in a SourceChannel at the given
initial position with zero velocity and unit gain, enqueues it on the
pending queue, returns the handle immediately, leaves the previously
active set untouched (frames already emitted were computed from the prior
state alone), and the very next tick mixes the new channel's frame on top
of what the prior state would have emitted. -/
theorem play_at_enqueues_and_contributes_next_tick (kw : ℚ)
    (dirOf : Vec3 → Vec3) (m : MixBus) (input : List ℚ) (pos : Vec3) :
    (Ambisonic.play_at m input pos).2 = m.nextId
    ∧ (Ambisonic.play_at m input pos).1.active = m.active
    ∧ (Ambisonic.play_at m input pos).1.pending
        = m.pending ++ [(m.nextId, ⟨input, pos, Vec3.zero, 1, false⟩)]
    ∧ ((Ambisonic.play_at m input pos).1.tick kw dirOf).1
        = ((m.tick kw dirOf).1).add
            (SourceChannel.pullFrame kw dirOf
              ⟨input, pos, Vec3.zero, 1, false⟩) := by
  refine ⟨rfl, rfl, rfl, ?_⟩
  have hent : (Ambisonic.play_at m input pos).1.entries
      = m.entries ++ [(m.nextId, ⟨input, pos, Vec3.zero, 1, false⟩)] := by
    simp [Ambisonic.play_at, BmixerComposer.play, BstreamConfig.new,
      BstreamConfig.with_position, MixBus.entries]
  cases hc : SourceChannel.pull kw dirOf
      ⟨input, pos, Vec3.zero, 1, false⟩ with
  | none =>
    have hsf : (Ambisonic.play_at m input pos).1.sourceFrames kw dirOf
        = m.sourceFrames kw dirOf := by
      simp [MixBus.sourceFrames, hent, List.filterMap_append, hc]
    show ((Ambisonic.play_at m input pos).1.sourceFrames kw dirOf).foldl
        FieldFrame.add FieldFrame.silent = _
    rw [hsf, SourceChannel.pullFrame, hc]
    exact (FieldFrame.add_silent _).symm
  | some r =>
    have hsf : (Ambisonic.play_at m input pos).1.sourceFrames kw dirOf
        = m.sourceFrames kw dirOf ++ [r.1] := by
      simp [MixBus.sourceFrames, hent, List.filterMap_append, hc]
    show ((Ambisonic.play_at m input pos).1.sourceFrames kw dirOf).foldl
        FieldFrame.add FieldFrame.silent = _
    rw [hsf, foldl_add_append_single, SourceChannel.pullFrame, hc]
    rfl

/-- C9: the deprecated `play` gives exactly the same result as
`play_omni` on every input; both forward the input to the composer with a
fresh default configuration carrying no position. -/
theorem play_refines_play_omni :
    (∀ m input, Ambisonic.play m input = Ambisonic.play_omni m input)
    ∧ (∀ m input, Ambisonic.play m input
        = BmixerComposer.play m input BstreamConfig.new)
    ∧ BstreamConfig.new.position = none :=
  ⟨fun _ _ => rfl, fun _ _ => rfl, rfl⟩

/-- C10: each builder setter modifies only its own field: `with_device`
only the device, `with_sample_rate` only the sample rate, `with_config`
only the configuration, from every starting builder state. -/
theorem builder_setters_touch_only_their_field (b : AmbisonicBuilder)
    (d : Device) (r : Nat) (c : PlaybackConfiguration) :
    (b.with_device d).device = some d
    ∧ (b.with_device d).sample_rate = b.sample_rate
    ∧ (b.with_device d).config = b.config
    ∧ (b.with_sample_rate r).sample_rate = r
    ∧ (b.with_sample_rate r).device = b.device
    ∧ (b.with_sample_rate r).config = b.config
    ∧ (b.with_config c).config = c
    ∧ (b.with_config c).device = b.device
    ∧ (b.with_config c).sample_rate = b.sample_rate :=
  ⟨rfl, rfl, rfl, rfl, rfl, rfl, rfl, rfl, rfl⟩

end Ambisonic
